import Mathlib

/-!
Verification of the Bedrock conversational-agent reference implementation.

The repository ships the Converse-API agent (`agents/agent.py`,
`agents/utils/history_util.py`) and the Invoke-API agent
(`agents/agent_invoke.py`, `agents/utils/history_util_invoke.py`) together
with their documentation.  The Python modules themselves are not part of the
checked-out sources here; only their documentation (README, migration guides,
`SUMMARY.md`, the demo notebook) is.  Components whose implementation is
absent are therefore modelled from the specification, as marked on each
definition; the `ModelConfig` dataclass and the request-body shapes are
embedded from the code excerpts that do appear in the sources
(`INVOKE_MIGRATION_GUIDE.md`).
-/

/-- Modelled from the spec: the `role` of one Message, enum {user, assistant}
(spec 3, data model; implementation `history_util.py` absent from sources). -/
inductive Role
  | user
  | assistant
deriving DecidableEq, Repr

/-- The role expected after a turn of role `r` in an alternating transcript. -/
def Role.next : Role → Role
  | .user => .assistant
  | .assistant => .user

/-- Modelled from the spec: supported image media types {jpeg, png, gif, webp}
(spec 3; implementation absent from sources). -/
inductive ImageFormat
  | jpeg
  | png
  | gif
  | webp
deriving DecidableEq, Repr

/-- Modelled from the spec: supported document media types
{txt, md, json, csv, xml, yaml, html, pdf, docx} (spec 3; implementation
absent from sources). -/
inductive DocumentFormat
  | txt
  | md
  | json
  | csv
  | xml
  | yaml
  | html
  | pdf
  | docx
deriving DecidableEq, Repr

/-- Modelled from the spec: a ContentBlock is a tagged variant over Text,
Image and Document; binary payloads are byte sequences, represented as lists
of naturals below 256 (spec 3; implementation absent from sources). -/
inductive ContentBlock
  | text (value : String)
  | image (format : ImageFormat) (bytes : List Nat)
  | document (format : DocumentFormat) (name : String) (bytes : List Nat)
deriving DecidableEq, Repr

/-- Modelled from the spec: one turn of the conversation, a role together with
an ordered sequence of ContentBlocks (spec 3; implementation absent from
sources). -/
structure Message where
  role : Role
  content : List ContentBlock
deriving DecidableEq, Repr

/-- Modelled from the spec: the Transcript is the full ordered sequence of
Messages (spec 3; implementation `history_util.py` absent from sources). -/
abbrev Transcript := List Message

/-- Modelled from the spec: error taxonomy of the transcript appends, spec 7
(implementation absent from sources). -/
inductive AppendError
  | roleOrderError
  | emptyTranscriptError
deriving DecidableEq, Repr

/-- Role of the last Message of a transcript, if any. -/
def lastRole : Transcript → Option Role
  | [] => none
  | [m] => some m.role
  | _ :: m :: ms => lastRole (m :: ms)

/-- Modelled from the spec: `appendUser(blocks)` fails with `RoleOrderError`
iff the transcript is non-empty and the last message's role is `user`;
otherwise it appends a user Message (spec 4.2; implementation absent from
sources). -/
def appendUser (t : Transcript) (blocks : List ContentBlock) :
    Except AppendError Transcript :=
  if lastRole t = some Role.user then .error .roleOrderError
  else .ok (t ++ [⟨Role.user, blocks⟩])

/-- Modelled from the spec: `appendAssistant(blocks)` fails with
`EmptyTranscriptError` when no user turn exists yet, with `RoleOrderError`
when the last message's role is already `assistant`, and otherwise appends an
assistant Message (spec 4.2; implementation absent from sources). -/
def appendAssistant (t : Transcript) (blocks : List ContentBlock) :
    Except AppendError Transcript :=
  match lastRole t with
  | none => .error .emptyTranscriptError
  | some Role.assistant => .error .roleOrderError
  | some Role.user => .ok (t ++ [⟨Role.assistant, blocks⟩])

/-- One call of the transcript append interface. -/
inductive AppendOp
  | user (blocks : List ContentBlock)
  | assistant (blocks : List ContentBlock)
deriving DecidableEq, Repr

/-- Modelled from the spec: one append call as a state transformer; on failure
the Transcript is left unchanged and the error is reported (spec 8, role
alternation property; implementation absent from sources). -/
def stepOp (t : Transcript) : AppendOp → Transcript × Option AppendError
  | .user blocks =>
      match appendUser t blocks with
      | .ok t1 => (t1, none)
      | .error e => (t, some e)
  | .assistant blocks =>
      match appendAssistant t blocks with
      | .ok t1 => (t1, none)
      | .error e => (t, some e)

/-- Run a sequence of append calls, keeping the prior state whenever a call
fails. -/
def runOps (t : Transcript) : List AppendOp → Transcript
  | [] => t
  | op :: ops => runOps (stepOp t op).1 ops

/-- `expects r ms` holds when `ms` is the strict role alternation starting at
`r`. -/
def expects : Role → List Message → Bool
  | _, [] => true
  | r, m :: ms => (m.role = r) && expects r.next ms

/-- The transcript invariant of spec 3: roles alternate starting from `user`. -/
def alternates (t : Transcript) : Bool :=
  expects Role.user t

theorem lastRole_cons_cons (a b : Message) (ms : List Message) :
    lastRole (a :: b :: ms) = lastRole (b :: ms) := rfl

theorem expects_append_last (t : List Message) (r0 : Role) (m : Message)
    (h : expects r0 t = true)
    (h0 : t = [] → m.role = r0)
    (hl : ∀ r, lastRole t = some r → m.role = r.next) :
    expects r0 (t ++ [m]) = true := by
  induction t generalizing r0 with
  | nil =>
      simp [expects, h0 rfl]
  | cons a t ih =>
      simp only [expects, Bool.and_eq_true, decide_eq_true_eq] at h
      cases t with
      | nil =>
          have hm : m.role = a.role.next := hl a.role (by simp [lastRole])
          simp [expects, h.1, hm]
      | cons b ms =>
          have htail : expects r0.next ((b :: ms) ++ [m]) = true := by
            refine ih r0.next h.2 (by simp) ?_
            intro r hr
            exact hl r (by simpa [lastRole_cons_cons] using hr)
          show (decide (a.role = r0) && expects r0.next ((b :: ms) ++ [m]))
              = true
          have hd : (decide (a.role = r0)) = true := by simp [h.1]
          rw [hd, Bool.true_and]
          exact htail

theorem step_preserves_alternates (t : Transcript) (op : AppendOp)
    (h : alternates t = true) : alternates (stepOp t op).1 = true := by
  cases op with
  | user blocks =>
      by_cases hu : lastRole t = some Role.user
      · simp [stepOp, appendUser, hu, h]
      · simp only [stepOp, appendUser, hu, if_false]
        refine expects_append_last t Role.user _ h (fun _ => rfl) ?_
        intro r hr
        cases r with
        | user => exact absurd hr hu
        | assistant => rfl
  | assistant blocks =>
      cases hl : lastRole t with
      | none => simp [stepOp, appendAssistant, hl, h]
      | some r =>
          cases r with
          | assistant => simp [stepOp, appendAssistant, hl, h]
          | user =>
              simp only [stepOp, appendAssistant, hl]
              refine expects_append_last t Role.user _ h ?_ ?_
              · intro he; subst he; simp [lastRole] at hl
              · intro r hr
                rw [hl] at hr
                cases hr
                rfl

theorem runOps_preserves_alternates (ops : List AppendOp) :
    ∀ t : Transcript, alternates t = true → alternates (runOps t ops) = true := by
  induction ops with
  | nil => intro t h; simpa [runOps] using h
  | cons op ops ih =>
      intro t h
      exact ih _ (step_preserves_alternates t op h)

theorem stepOp_frame (t : Transcript) (op : AppendOp)
    (h : (stepOp t op).2.isSome = true) : (stepOp t op).1 = t := by
  cases op with
  | user blocks =>
      by_cases hu : lastRole t = some Role.user
      · simp [stepOp, appendUser, hu]
      · simp [stepOp, appendUser, hu] at h
  | assistant blocks =>
      cases hl : lastRole t with
      | none => simp [stepOp, appendAssistant, hl]
      | some r =>
          cases r with
          | assistant => simp [stepOp, appendAssistant, hl]
          | user => simp [stepOp, appendAssistant, hl] at h

/-- The standard base64 alphabet, indexed by sextet value. -/
def b64chars : List Char :=
  "ABCDEFGHIJKLMNOPQRSTUVWXYZabcdefghijklmnopqrstuvwxyz0123456789+/".toList

/-- Character of the base64 alphabet at a sextet value. -/
def sextetChar (n : Nat) : Char :=
  b64chars.getD n '='

/-- Position of a character within a list, searched from index `i`. -/
def findIdxFrom (c : Char) : List Char → Nat → Option Nat
  | [], _ => none
  | d :: ds, i => if d = c then some i else findIdxFrom c ds (i + 1)

/-- Sextet value of a base64 alphabet character, `none` for any other
character. -/
def charSextet (c : Char) : Option Nat :=
  findIdxFrom c b64chars 0

/-- Modelled from the spec: base64 encoding of a binary payload, as used for
attachment payloads both on the wire and in the export file (spec 6;
implementation, Python `base64.b64encode` in `agent.py`, absent from
sources). -/
def b64encode : List Nat → List Char
  | b1 :: b2 :: b3 :: rest =>
      sextetChar (b1 / 4) :: sextetChar ((b1 % 4) * 16 + b2 / 16) ::
        sextetChar ((b2 % 16) * 4 + b3 / 64) :: sextetChar (b3 % 64) ::
          b64encode rest
  | [b1, b2] =>
      [sextetChar (b1 / 4), sextetChar ((b1 % 4) * 16 + b2 / 16),
        sextetChar ((b2 % 16) * 4), '=']
  | [b1] =>
      [sextetChar (b1 / 4), sextetChar ((b1 % 4) * 16), '=', '=']
  | [] => []

/-- Modelled from the spec: base64 decoding, the inverse used at import time
(spec 6; implementation, Python `base64.b64decode`, absent from sources). -/
def b64decode : List Char → Option (List Nat)
  | [] => some []
  | c1 :: c2 :: c3 :: c4 :: rest =>
      match charSextet c1, charSextet c2 with
      | some s1, some s2 =>
          if c3 = '=' then
            if c4 = '=' then
              if rest = [] then some [s1 * 4 + s2 / 16] else none
            else none
          else
            match charSextet c3 with
            | some s3 =>
                if c4 = '=' then
                  if rest = [] then
                    some [s1 * 4 + s2 / 16, (s2 % 16) * 16 + s3 / 4]
                  else none
                else
                  match charSextet c4, b64decode rest with
                  | some s4, some bs =>
                      some ((s1 * 4 + s2 / 16) :: ((s2 % 16) * 16 + s3 / 4) ::
                        ((s3 % 4) * 64 + s4) :: bs)
                  | _, _ => none
            | none => none
      | _, _ => none
  | _ => none

theorem charSextet_sextetChar : ∀ n, n < 64 → charSextet (sextetChar n) = some n := by
  decide

theorem sextetChar_ne_pad : ∀ n, n < 64 → sextetChar n ≠ '=' := by
  decide

theorem b64decode_encode (bs : List Nat) (h : ∀ b ∈ bs, b < 256) :
    b64decode (b64encode bs) = some bs := by
  induction bs using b64encode.induct with
  | case1 b1 b2 b3 rest ih =>
      have h1 : b1 < 256 := h b1 (by simp)
      have h2 : b2 < 256 := h b2 (by simp)
      have h3 : b3 < 256 := h b3 (by simp)
      have hrest : b64decode (b64encode rest) = some rest := by
        refine ih ?_
        intro b hb
        exact h b (by simp [hb])
      have e1 : b1 / 4 < 64 := by omega
      have e2 : (b1 % 4) * 16 + b2 / 16 < 64 := by omega
      have e3 : (b2 % 16) * 4 + b3 / 64 < 64 := by omega
      have e4 : b3 % 64 < 64 := by omega
      simp only [b64encode, b64decode, charSextet_sextetChar _ e1,
        charSextet_sextetChar _ e2, charSextet_sextetChar _ e3,
        charSextet_sextetChar _ e4, sextetChar_ne_pad _ e3, if_false,
        sextetChar_ne_pad _ e4, hrest]
      have v1 : b1 / 4 * 4 + ((b1 % 4) * 16 + b2 / 16) / 16 = b1 := by omega
      have v2 : ((b1 % 4) * 16 + b2 / 16) % 16 * 16 +
          ((b2 % 16) * 4 + b3 / 64) / 4 = b2 := by omega
      have v3 : ((b2 % 16) * 4 + b3 / 64) % 4 * 64 + b3 % 64 = b3 := by omega
      simp [v1, v2, v3]
  | case2 b1 b2 =>
      have h1 : b1 < 256 := h b1 (by simp)
      have h2 : b2 < 256 := h b2 (by simp)
      have e1 : b1 / 4 < 64 := by omega
      have e2 : (b1 % 4) * 16 + b2 / 16 < 64 := by omega
      have e3 : (b2 % 16) * 4 < 64 := by omega
      simp only [b64encode, b64decode, charSextet_sextetChar _ e1,
        charSextet_sextetChar _ e2, charSextet_sextetChar _ e3,
        sextetChar_ne_pad _ e3, if_false, if_true]
      have v1 : b1 / 4 * 4 + ((b1 % 4) * 16 + b2 / 16) / 16 = b1 := by omega
      have v2 : ((b1 % 4) * 16 + b2 / 16) % 16 * 16 + (b2 % 16) * 4 / 4 = b2 := by
        omega
      have v2b : ((b1 % 4) * 16 + b2 / 16) % 16 * 16 + b2 % 16 = b2 := by omega
      simp [v1, v2, v2b]
  | case3 b1 =>
      have h1 : b1 < 256 := h b1 (by simp)
      have e1 : b1 / 4 < 64 := by omega
      have e2 : (b1 % 4) * 16 < 64 := by omega
      simp only [b64encode, b64decode, charSextet_sextetChar _ e1,
        charSextet_sextetChar _ e2, if_true]
      have v1 : b1 / 4 * 4 + (b1 % 4) * 16 / 16 = b1 := by omega
      have v1b : b1 / 4 * 4 + b1 % 4 = b1 := by omega
      simp [v1, v1b]
  | case4 => rfl

/-- A byte sequence is valid when every entry is an actual byte. -/
def validBytes (bs : List Nat) : Bool :=
  bs.all (fun b => b < 256)

/-- Validity of one ContentBlock: binary payloads hold actual bytes. -/
def validBlock : ContentBlock → Bool
  | .text _ => true
  | .image _ bs => validBytes bs
  | .document _ _ bs => validBytes bs

/-- Validity of one Message. -/
def validMessage (m : Message) : Bool :=
  m.content.all validBlock

/-- Validity of a Transcript. -/
def validTranscript (t : Transcript) : Bool :=
  t.all validMessage

/-- Modelled from the spec: one block of the export file, with binary
attachment payloads stored as base64 text (spec 6, transcript export file;
implementation `export_chat_history` in `agent.py` absent from sources). -/
inductive ExportBlock
  | text (value : String)
  | image (format : ImageFormat) (data : String)
  | document (format : DocumentFormat) (name : String) (data : String)
deriving DecidableEq, Repr

/-- Modelled from the spec: one `{role, content: [...]}` record of the export
file (spec 6; implementation absent from sources). -/
structure ExportRecord where
  role : Role
  content : List ExportBlock
deriving DecidableEq, Repr

/-- Serialize one ContentBlock for the export file. -/
def exportBlock : ContentBlock → ExportBlock
  | .text s => .text s
  | .image f bs => .image f (String.mk (b64encode bs))
  | .document f n bs => .document f n (String.mk (b64encode bs))

/-- Parse one block of the export file back into a ContentBlock. -/
def importBlock : ExportBlock → Option ContentBlock
  | .text s => some (.text s)
  | .image f d => (b64decode d.data).map (fun bs => ContentBlock.image f bs)
  | .document f n d =>
      (b64decode d.data).map (fun bs => ContentBlock.document f n bs)

/-- Map a fallible function over a list, failing if any element fails. -/
def optMap (f : α → Option β) : List α → Option (List β)
  | [] => some []
  | a :: as =>
      match f a, optMap f as with
      | some b, some bs => some (b :: bs)
      | _, _ => none

/-- Modelled from the spec: `export` serializes the Transcript as an ordered
sequence of `{role, content}` records, binary payloads re-encoded as base64
text (spec 4.2 and 6; Python `export_chat_history`, absent from sources). -/
def export_chat_history (t : Transcript) : List ExportRecord :=
  t.map (fun m => ⟨m.role, m.content.map exportBlock⟩)

/-- Modelled from the spec: `import` reconstructs a Transcript from the export
records, decoding every base64 payload (spec 4.2 and 6; implementation absent
from sources). -/
def import_chat_history (recs : List ExportRecord) : Option Transcript :=
  optMap
    (fun r => (optMap importBlock r.content).map (fun cs => Message.mk r.role cs))
    recs

theorem importBlock_exportBlock (b : ContentBlock) (h : validBlock b = true) :
    importBlock (exportBlock b) = some b := by
  cases b with
  | text s => rfl
  | image f bs =>
      have hb : ∀ x ∈ bs, x < 256 := by
        simpa [validBlock, validBytes, List.all_eq_true] using h
      simp [exportBlock, importBlock, String.mk, b64decode_encode bs hb]
  | document f n bs =>
      have hb : ∀ x ∈ bs, x < 256 := by
        simpa [validBlock, validBytes, List.all_eq_true] using h
      simp [exportBlock, importBlock, String.mk, b64decode_encode bs hb]

theorem optMap_map_of_inverse (f : β → Option α) (g : α → β) (l : List α)
    (h : ∀ a ∈ l, f (g a) = some a) : optMap f (l.map g) = some l := by
  induction l with
  | nil => rfl
  | cons a as ih =>
      have ha : f (g a) = some a := h a (by simp)
      have has : optMap f (as.map g) = some as := by
        refine ih ?_
        intro x hx
        exact h x (by simp [hx])
      simp [optMap, ha, has]

theorem importMessage_exportMessage (m : Message) (h : validMessage m = true) :
    (optMap importBlock (m.content.map exportBlock)).map
      (fun cs => Message.mk m.role cs) = some m := by
  have hb : ∀ b ∈ m.content, importBlock (exportBlock b) = some b := by
    intro b hbm
    refine importBlock_exportBlock b ?_
    have := (List.all_eq_true.mp h) b hbm
    simpa using this
  simp [optMap_map_of_inverse importBlock exportBlock m.content hb]

/-- Modelled from the spec: a tagged block of the response envelope, either a
reasoning/thinking trace block or a final text block (spec 3,
ResponseEnvelope; implementation absent from sources). -/
inductive ResponseBlock
  | reasoning (text : String)
  | text (value : String)
deriving DecidableEq, Repr

/-- Modelled from the spec: the raw reply consumed by the extractor — ordered
content blocks, a stop reason and token-usage counters (spec 3;
implementation absent from sources). -/
structure ResponseEnvelope where
  content : List ResponseBlock
  stopReason : String
  inputTokens : Nat
  outputTokens : Nat
deriving DecidableEq, Repr

/-- Modelled from the spec: failure of the extractor on a protocol-violating
envelope (spec 4.3 and 7; implementation absent from sources). -/
inductive SplitError
  | malformedResponseError
deriving DecidableEq, Repr

/-- Texts of the reasoning-tagged blocks, in envelope order. -/
def reasoningParts (content : List ResponseBlock) : List String :=
  content.filterMap (fun b =>
    match b with
    | .reasoning s => some s
    | .text _ => none)

/-- Texts of the answer-bearing blocks, in envelope order. -/
def textParts (content : List ResponseBlock) : List String :=
  content.filterMap (fun b =>
    match b with
    | .reasoning _ => none
    | .text s => some s)

/-- Join a list of part texts, `none` when there is no part at all. -/
def joinParts (l : List String) : Option String :=
  if l.isEmpty then none else some (String.intercalate " " l)

/-- Modelled from the spec: `ReasoningExtractor.split` scans the envelope's
blocks in order, concatenates reasoning-tagged blocks into `reasoningText`
(`none` when there is none) and the other text-bearing blocks into
`answerText`, and fails with `MalformedResponseError` when no answer-bearing
block exists (spec 4.3; Python `get_reasoning_and_response` extraction logic
in `agent.py`, absent from sources). -/
def ReasoningExtractor.split (content : List ResponseBlock) :
    Except SplitError (Option String × String) :=
  if (textParts content).isEmpty then .error .malformedResponseError
  else .ok (joinParts (reasoningParts content),
    String.intercalate " " (textParts content))

/-- Modelled from the spec: a transport-layer failure, propagated unchanged —
the shape of a botocore `ClientError` carrying an error code and message
(spec 4.4 and 7; migration guides show `except ClientError`). -/
structure TransportError where
  code : String
  message : String
deriving DecidableEq, Repr

/-- Errors a chat/run turn can surface to the caller. -/
inductive ChatError
  | roleOrder (e : AppendError)
  | transport (e : TransportError)
  | malformedResponse
deriving DecidableEq, Repr

/-- Modelled from the spec: one chat/run turn of the Orchestrator. Step 2
appends the user Message; step 3 submits the serialized transcript (the
transport outcome is passed in as the collaborator's reply); step 4 splits
the envelope and appends an assistant Message holding only the answer text.
On a transport failure the turn aborts with the user turn retained and
nothing else changed (spec 4.4; `Agent.chat`/`Agent.run` in `agent.py`,
absent from sources). -/
def chatTurn (t : Transcript) (blocks : List ContentBlock)
    (transport : Except TransportError ResponseEnvelope) :
    Transcript × Except ChatError (Option String × String) :=
  match appendUser t blocks with
  | .error e => (t, .error (.roleOrder e))
  | .ok t1 =>
      match transport with
      | .error e => (t1, .error (.transport e))
      | .ok env =>
          match ReasoningExtractor.split env.content with
          | .error _ => (t1, .error .malformedResponse)
          | .ok (r, a) =>
              match appendAssistant t1 [ContentBlock.text a] with
              | .ok t2 => (t2, .ok (r, a))
              | .error e => (t1, .error (.roleOrder e))

/-- Modelled from the spec: attachment validation errors — unsupported
extension, size/count ceiling violation, or a missing file (spec 4.1 and 7;
implementation absent from sources). -/
inductive AttachmentError
  | unsupportedFormatError
  | attachmentLimitError
  | fileNotFoundError
deriving DecidableEq, Repr

/-- The per-file document ceiling: 4.5 MB (README: "up to 5 files, 4.5MB
each"). -/
def maxDocumentBytes : Nat := 4718592

/-- The per-call document count ceiling (README: "up to 5 files"). -/
def maxDocumentsPerCall : Nat := 5

/-- Document media type inferred from a file extension (README: supported
document formats txt, md, json, csv, xml, yaml, html, pdf, docx). -/
def documentFormatOfExt : String → Option DocumentFormat
  | "txt" => some .txt
  | "md" => some .md
  | "json" => some .json
  | "csv" => some .csv
  | "xml" => some .xml
  | "yaml" => some .yaml
  | "html" => some .html
  | "pdf" => some .pdf
  | "docx" => some .docx
  | _ => none

/-- Modelled from the spec: `AttachmentCodec.encode` for a document — reads
the file (a missing file is `FileNotFoundError`), infers the media type from
the extension (`UnsupportedFormatError` otherwise) and applies the 4.5 MB
per-file ceiling (`AttachmentLimitError`); the file system is modelled as the
optional byte content of the path (spec 4.1; implementation absent from
sources). -/
def encodeDocument (ext name : String) (bytes : Option (List Nat)) :
    Except AttachmentError ContentBlock :=
  match bytes with
  | none => .error .fileNotFoundError
  | some bs =>
      match documentFormatOfExt ext with
      | none => .error .unsupportedFormatError
      | some f =>
          if bs.length > maxDocumentBytes then .error .attachmentLimitError
          else .ok (.document f name bs)

/-- Map a fallible encoder over a list, failing on the first error. -/
def exceptMap (f : α → Except ε β) : List α → Except ε (List β)
  | [] => .ok []
  | a :: as =>
      match f a, exceptMap f as with
      | .ok b, .ok bs => .ok (b :: bs)
      | .error e, _ => .error e
      | _, .error e => .error e

/-- One document attachment request: extension, display name, and the bytes
found at the path (`none` when the file is missing). -/
abbrev DocumentInput := String × String × Option (List Nat)

/-- Modelled from the spec: encoding the documents of one call — at most 5
documents per call (`AttachmentLimitError` beyond that), each encoded
individually (spec 4.1; implementation absent from sources). -/
def encodeDocuments (docs : List DocumentInput) :
    Except AttachmentError (List ContentBlock) :=
  if docs.length > maxDocumentsPerCall then .error .attachmentLimitError
  else exceptMap (fun d => encodeDocument d.1 d.2.1 d.2.2) docs

/-- The shared model configuration, embedded from the `ModelConfig` dataclass
shown in `INVOKE_MIGRATION_GUIDE.md` ("Both implementations use the same
`ModelConfig`"); the float-valued sampling parameters are exact decimals,
represented as rationals. -/
structure ModelConfig where
  model : String := "anthropic.claude-3-7-sonnet-20250219-v1:0"
  max_tokens : Nat := 4096
  temperature : ℚ := 1
  top_p : ℚ := 9 / 10
  context_window_tokens : Nat := 180000
  enable_reasoning : Bool := true
  reasoning_budget_tokens : Nat := 2000
deriving DecidableEq

/-- A `ModelConfig()` with every field left at its dataclass default. -/
def defaultModelConfig : ModelConfig := {}

/-- Wire block of convention A (Converse): Bedrock-native tagging, for
instance a bare `{"text": ...}` object; binary payloads carried as base64
text (spec 6; request shape from `INVOKE_MIGRATION_GUIDE.md`). -/
inductive ConverseBlock
  | text (value : String)
  | image (format : ImageFormat) (data : String)
  | document (format : DocumentFormat) (name : String) (data : String)
deriving DecidableEq, Repr

/-- Wire block of convention B (Invoke): Anthropic Messages tagging, for
instance `{"type": "text", "text": ...}`; same information content as
convention A (spec 6). -/
inductive InvokeBlock
  | text (value : String)
  | image (format : ImageFormat) (data : String)
  | document (format : DocumentFormat) (name : String) (data : String)
deriving DecidableEq, Repr

/-- One wire message of convention A. -/
structure ConverseMessage where
  role : Role
  content : List ConverseBlock
deriving DecidableEq, Repr

/-- One wire message of convention B. -/
structure InvokeMessage where
  role : Role
  content : List InvokeBlock
deriving DecidableEq, Repr

/-- Serialize one ContentBlock in convention A. -/
def converseBlockOf : ContentBlock → ConverseBlock
  | .text s => .text s
  | .image f bs => .image f (String.mk (b64encode bs))
  | .document f n bs => .document f n (String.mk (b64encode bs))

/-- Serialize one ContentBlock in convention B. -/
def invokeBlockOf : ContentBlock → InvokeBlock
  | .text s => .text s
  | .image f bs => .image f (String.mk (b64encode bs))
  | .document f n bs => .document f n (String.mk (b64encode bs))

/-- Modelled from the spec: `history.format_for_bedrock()`, the pure
serialization of the Transcript into convention-A wire messages (spec 4.2;
`history_util.py` absent from sources). -/
def format_for_bedrock (t : Transcript) : List ConverseMessage :=
  t.map (fun m => ⟨m.role, m.content.map converseBlockOf⟩)

/-- Modelled from the spec: the corresponding pure serialization into
convention-B wire messages (spec 4.2; `history_util_invoke.py` absent from
sources). -/
def format_for_invoke (t : Transcript) : List InvokeMessage :=
  t.map (fun m => ⟨m.role, m.content.map invokeBlockOf⟩)

/-- The convention-A (Converse) request, embedded from the `params` dict of
`INVOKE_MIGRATION_GUIDE.md`: `modelId`, `messages`,
`inferenceConfig.maxTokens`, `inferenceConfig.temperature`, and
`additionalModelRequestFields.thinking.budget_tokens` when reasoning is
enabled.  Note the shape carries no system prompt field. -/
structure ConverseRequest where
  modelId : String
  messages : List ConverseMessage
  maxTokens : Nat
  temperature : ℚ
  thinking : Option Nat
deriving DecidableEq

/-- The convention-B (Invoke) request, embedded from the `request_body` dict
of `INVOKE_MIGRATION_GUIDE.md` together with the `modelId` passed beside it:
`anthropic_version`, `max_tokens`, `temperature`, `messages`, `system`, and
`thinking.max_tokens` when reasoning is enabled. -/
structure InvokeRequest where
  modelId : String
  anthropic_version : String
  max_tokens : Nat
  temperature : ℚ
  messages : List InvokeMessage
  system : String
  thinking : Option Nat
deriving DecidableEq

/-- Build the convention-A request for a transcript under a configuration;
the reasoning configuration is injected iff `enable_reasoning` (spec 4.4
step 3; request shape from `INVOKE_MIGRATION_GUIDE.md`). -/
def converseRequest (cfg : ModelConfig) (t : Transcript) : ConverseRequest :=
  { modelId := cfg.model
    messages := format_for_bedrock t
    maxTokens := cfg.max_tokens
    temperature := cfg.temperature
    thinking :=
      if cfg.enable_reasoning then some cfg.reasoning_budget_tokens else none }

/-- Build the convention-B request for a transcript, system prompt and
configuration (spec 4.4 step 3; request shape from
`INVOKE_MIGRATION_GUIDE.md`). -/
def invokeRequest (cfg : ModelConfig) (system : String) (t : Transcript) :
    InvokeRequest :=
  { modelId := cfg.model
    anthropic_version := "bedrock-2023-05-31"
    max_tokens := cfg.max_tokens
    temperature := cfg.temperature
    messages := format_for_invoke t
    system := system
    thinking :=
      if cfg.enable_reasoning then some cfg.reasoning_budget_tokens else none }

/-- Retag one wire block from convention A to convention B. -/
def blockAtoB : ConverseBlock → InvokeBlock
  | .text s => .text s
  | .image f d => .image f d
  | .document f n d => .document f n d

/-- Retag one wire block from convention B to convention A. -/
def blockBtoA : InvokeBlock → ConverseBlock
  | .text s => .text s
  | .image f d => .image f d
  | .document f n d => .document f n d

/-- Retag one wire message from convention A to convention B. -/
def msgAtoB (m : ConverseMessage) : InvokeMessage :=
  ⟨m.role, m.content.map blockAtoB⟩

/-- Retag one wire message from convention B to convention A. -/
def msgBtoA (m : InvokeMessage) : ConverseMessage :=
  ⟨m.role, m.content.map blockBtoA⟩

/-- Translate a convention-A request, paired with the system prompt the
Converse shape does not carry, into the convention-B request. -/
def converseToInvoke (r : ConverseRequest) (system : String) : InvokeRequest :=
  { modelId := r.modelId
    anthropic_version := "bedrock-2023-05-31"
    max_tokens := r.maxTokens
    temperature := r.temperature
    messages := r.messages.map msgAtoB
    system := system
    thinking := r.thinking }

/-- Translate a convention-B request back into the convention-A request
paired with the system prompt. -/
def invokeToConverse (r : InvokeRequest) : ConverseRequest × String :=
  ({ modelId := r.modelId
     messages := r.messages.map msgBtoA
     maxTokens := r.max_tokens
     temperature := r.temperature
     thinking := r.thinking }, r.system)

theorem blockBtoA_blockAtoB (b : ConverseBlock) : blockBtoA (blockAtoB b) = b := by
  cases b <;> rfl

theorem blockAtoB_blockBtoA (b : InvokeBlock) : blockAtoB (blockBtoA b) = b := by
  cases b <;> rfl

theorem msgBtoA_msgAtoB (m : ConverseMessage) : msgBtoA (msgAtoB m) = m := by
  cases m with
  | mk r c =>
      simp only [msgAtoB, msgBtoA, List.map_map]
      refine congrArg _ ?_
      have hmap : List.map (blockBtoA ∘ blockAtoB) c = List.map id c :=
        List.map_congr_left (fun b _ => blockBtoA_blockAtoB b)
      simpa using hmap

theorem msgAtoB_msgBtoA (m : InvokeMessage) : msgAtoB (msgBtoA m) = m := by
  cases m with
  | mk r c =>
      simp only [msgAtoB, msgBtoA, List.map_map]
      refine congrArg _ ?_
      have hmap : List.map (blockAtoB ∘ blockBtoA) c = List.map id c :=
        List.map_congr_left (fun b _ => blockAtoB_blockBtoA b)
      simpa using hmap

theorem msgAtoB_converse (m : Message) :
    msgAtoB ⟨m.role, m.content.map converseBlockOf⟩
      = ⟨m.role, m.content.map invokeBlockOf⟩ := by
  simp only [msgAtoB, List.map_map]
  refine congrArg _ ?_
  refine List.map_congr_left ?_
  intro b _
  cases b <;> rfl

theorem msgBtoA_invoke (m : Message) :
    msgBtoA ⟨m.role, m.content.map invokeBlockOf⟩
      = ⟨m.role, m.content.map converseBlockOf⟩ := by
  simp only [msgBtoA, List.map_map]
  refine congrArg _ ?_
  refine List.map_congr_left ?_
  intro b _
  cases b <;> rfl

/-- The public Python exception surface shown by the migration guides'
error-handling contract: `except ClientError`, `except FileNotFoundError`,
`except ValueError` ("Both implementations handle the same error types"). -/
inductive PyException
  | valueError (message : String)
  | fileNotFoundError (message : String)
  | clientError (code : String) (message : String)
deriving DecidableEq, Repr

/-- The three exception classes of the public surface. -/
inductive PyExceptionType
  | valueError
  | fileNotFoundError
  | clientError
deriving DecidableEq, Repr

/-- Class of a surfaced exception. -/
def PyException.typeOf : PyException → PyExceptionType
  | .valueError _ => .valueError
  | .fileNotFoundError _ => .fileNotFoundError
  | .clientError _ _ => .clientError

/-- Modelled from the spec: how a transcript append failure surfaces at the
public interface — role validation raises `ValueError` (migration guides'
error contract; `history_util.py` absent from sources). -/
def raiseAppendError : AppendError → PyException
  | .roleOrderError => .valueError "role order violated"
  | .emptyTranscriptError =>
      .valueError "cannot add assistant message to empty history"

/-- Modelled from the spec: how an attachment validation failure surfaces at
the public interface — format and limit validation raise `ValueError`, a
missing file raises `FileNotFoundError` (migration guides' error contract;
`agent.py` absent from sources). -/
def raiseAttachmentError : AttachmentError → PyException
  | .unsupportedFormatError => .valueError "unsupported file format"
  | .attachmentLimitError => .valueError "attachment limit exceeded"
  | .fileNotFoundError => .fileNotFoundError "no such file"

/-- Modelled from the spec: a transport failure is propagated unchanged as
the botocore `ClientError` it arrived as (spec 4.4 failure semantics;
migration guides' error contract). -/
def raiseTransportError (e : TransportError) : PyException :=
  .clientError e.code e.message

theorem format_AtoB (t : Transcript) :
    (format_for_bedrock t).map msgAtoB = format_for_invoke t := by
  simp only [format_for_bedrock, format_for_invoke, List.map_map]
  refine List.map_congr_left ?_
  intro m _
  exact msgAtoB_converse m

theorem format_BtoA (t : Transcript) :
    (format_for_invoke t).map msgBtoA = format_for_bedrock t := by
  simp only [format_for_bedrock, format_for_invoke, List.map_map]
  refine List.map_congr_left ?_
  intro m _
  exact msgBtoA_invoke m

theorem map_comp_msgBtoA_msgAtoB (l : List ConverseMessage) :
    List.map (msgBtoA ∘ msgAtoB) l = l := by
  have h : List.map (msgBtoA ∘ msgAtoB) l = List.map id l :=
    List.map_congr_left (fun m _ => msgBtoA_msgAtoB m)
  simpa using h

theorem map_comp_msgAtoB_msgBtoA (l : List InvokeMessage) :
    List.map (msgAtoB ∘ msgBtoA) l = l := by
  have h : List.map (msgAtoB ∘ msgBtoA) l = List.map id l :=
    List.map_congr_left (fun m _ => msgAtoB_msgBtoA m)
  simpa using h

/-- C1 (counterexample): the claim says a call that would make the transcript
begin with assistant fails with `RoleOrderError`; on the model of spec 4.2
and the spec 8 scenario, `appendAssistant` on the empty Transcript fails with
`EmptyTranscriptError`, a different error. -/
theorem roleOrder_claim_counterexample :
    appendAssistant ([] : Transcript) [ContentBlock.text "Hello!"]
        = .error AppendError.emptyTranscriptError
  ∧ AppendError.emptyTranscriptError ≠ AppendError.roleOrderError :=
  ⟨rfl, by decide⟩

/-- C1 (amended): role alternation is a transcript invariant — every sequence
of appendUser/appendAssistant calls from the empty Transcript keeps roles
alternating starting from user; a call that would create two consecutive
same-role Messages fails with `RoleOrderError`; a call that would make the
transcript begin with assistant fails with `EmptyTranscriptError`; on any
such failure the Transcript is exactly the same as before the call. -/
theorem transcript_role_alternation :
    (∀ ops : List AppendOp, alternates (runOps [] ops) = true)
  ∧ (∀ (t : Transcript) (op : AppendOp),
       (stepOp t op).2.isSome = true → (stepOp t op).1 = t)
  ∧ (∀ (t : Transcript) (blocks : List ContentBlock),
       lastRole t = some Role.user →
       appendUser t blocks = .error AppendError.roleOrderError)
  ∧ (∀ (t : Transcript) (blocks : List ContentBlock),
       lastRole t = some Role.assistant →
       appendAssistant t blocks = .error AppendError.roleOrderError)
  ∧ (∀ blocks : List ContentBlock,
       appendAssistant [] blocks = .error AppendError.emptyTranscriptError) := by
  refine ⟨?_, ?_, ?_, ?_, ?_⟩
  · intro ops
    exact runOps_preserves_alternates ops [] rfl
  · intro t op h
    exact stepOp_frame t op h
  · intro t blocks h
    simp [appendUser, h]
  · intro t blocks h
    simp [appendAssistant, h]
  · intro blocks
    rfl

/-- Witness for C1: concrete append calls exercising the amended claim. -/
theorem transcript_role_alternation_witness :
    alternates (runOps [] [AppendOp.user [ContentBlock.text "Hi"],
        AppendOp.user [ContentBlock.text "again"]]) = true
  ∧ (stepOp [⟨Role.user, [ContentBlock.text "Hi"]⟩]
        (AppendOp.user [ContentBlock.text "again"])).1
      = [⟨Role.user, [ContentBlock.text "Hi"]⟩]
  ∧ appendUser [⟨Role.user, [ContentBlock.text "Hi"]⟩]
        [ContentBlock.text "again"] = .error AppendError.roleOrderError
  ∧ appendAssistant [⟨Role.user, [ContentBlock.text "Hi"]⟩,
        ⟨Role.assistant, [ContentBlock.text "Hello!"]⟩]
        [ContentBlock.text "more"] = .error AppendError.roleOrderError :=
  ⟨transcript_role_alternation.1 _,
   transcript_role_alternation.2.1 _ _ (by decide),
   transcript_role_alternation.2.2.1 _ _ (by decide),
   transcript_role_alternation.2.2.2.1 _ _ (by decide)⟩

/-- C2: export/import is a round trip — for every Transcript whose binary
payloads are actual bytes, importing the exported records reconstructs the
Transcript exactly, role sequence, block order and payload bytes included
(the base64 re-encoding is inverted losslessly). -/
theorem import_export_round_trip (t : Transcript)
    (h : validTranscript t = true) :
    import_chat_history (export_chat_history t) = some t := by
  unfold import_chat_history export_chat_history
  refine optMap_map_of_inverse _ _ t ?_
  intro m hm
  have hv : validMessage m = true := by
    have := (List.all_eq_true.mp h) m hm
    simpa using this
  exact importMessage_exportMessage m hv

/-- Witness for C2: a concrete two-turn transcript with an image and a
document payload round-trips through the export file. -/
theorem import_export_round_trip_witness :
    validTranscript
        [⟨Role.user, [ContentBlock.text "Hi",
            ContentBlock.image .png [0, 77, 255],
            ContentBlock.document .txt "a.txt" [104, 105]]⟩,
         ⟨Role.assistant, [ContentBlock.text "Hello!"]⟩] = true
  ∧ import_chat_history (export_chat_history
        [⟨Role.user, [ContentBlock.text "Hi",
            ContentBlock.image .png [0, 77, 255],
            ContentBlock.document .txt "a.txt" [104, 105]]⟩,
         ⟨Role.assistant, [ContentBlock.text "Hello!"]⟩])
      = some
        [⟨Role.user, [ContentBlock.text "Hi",
            ContentBlock.image .png [0, 77, 255],
            ContentBlock.document .txt "a.txt" [104, 105]]⟩,
         ⟨Role.assistant, [ContentBlock.text "Hello!"]⟩] :=
  ⟨by decide, import_export_round_trip _ (by decide)⟩

/-- C3: when the transport call of a chat/run turn fails, the turn returns the
Transcript exactly as it was after the user append of step 2 — the user
Message is retained, no assistant Message is appended, and nothing else
changes; the transport error is surfaced. -/
theorem chat_transport_failure_frame (t : Transcript)
    (blocks : List ContentBlock) (e : TransportError)
    (h : lastRole t ≠ some Role.user) :
    chatTurn t blocks (.error e)
      = (t ++ [⟨Role.user, blocks⟩], .error (ChatError.transport e)) := by
  simp [chatTurn, appendUser, h]

/-- Witness for C3: a throttling failure on the first turn leaves exactly the
user turn in the transcript. -/
theorem chat_transport_failure_frame_witness :
    chatTurn [] [ContentBlock.text "Hi"]
        (.error ⟨"ThrottlingException", "Rate exceeded"⟩)
      = ([] ++ [⟨Role.user, [ContentBlock.text "Hi"]⟩],
         .error (ChatError.transport ⟨"ThrottlingException", "Rate exceeded"⟩)) :=
  chat_transport_failure_frame [] _ _ (by decide)

/-- C4: the extractor fails with `MalformedResponseError` exactly when the
envelope has no answer-bearing block (in particular on zero content blocks);
with at least one answer-bearing block and no reasoning-tagged block it
returns a null `reasoningText` and a non-null `answerText` without error. -/
theorem split_malformed_iff :
    (∀ content : List ResponseBlock,
        ReasoningExtractor.split content
            = .error SplitError.malformedResponseError
          ↔ textParts content = [])
  ∧ ReasoningExtractor.split ([] : List ResponseBlock)
      = .error SplitError.malformedResponseError
  ∧ (∀ content : List ResponseBlock,
        textParts content ≠ [] → reasoningParts content = [] →
        ReasoningExtractor.split content
          = .ok (none, String.intercalate " " (textParts content))) := by
  refine ⟨?_, rfl, ?_⟩
  · intro content
    constructor
    · intro hsplit
      cases hc : textParts content with
      | nil => rfl
      | cons a as => simp [ReasoningExtractor.split, hc] at hsplit
    · intro hc
      simp [ReasoningExtractor.split, hc]
  · intro content h1 h2
    cases hc : textParts content with
    | nil => exact absurd hc h1
    | cons a as => simp [ReasoningExtractor.split, hc, h2, joinParts]

/-- Witness for C4: an answer-only envelope yields a null reasoning text and
its answer text, with no error. -/
theorem split_malformed_iff_witness :
    ReasoningExtractor.split [ResponseBlock.text "only answer"]
      = .ok (none,
          String.intercalate " " (textParts [ResponseBlock.text "only answer"])) :=
  split_malformed_iff.2.2 _ (by decide) (by decide)

/-- C5: the document ceilings are enforced exactly — a document strictly over
4.5 MB fails with `AttachmentLimitError`, a document of exactly 4.5 MB is
accepted, a sixth document in one call fails, and calls within both ceilings
(at most 5 documents, each at most 4.5 MB) are accepted. -/
theorem attachment_ceilings :
    (∀ (ext : String) (f : DocumentFormat) (name : String) (bs : List Nat),
        documentFormatOfExt ext = some f →
        bs.length > maxDocumentBytes →
        encodeDocument ext name (some bs)
          = .error AttachmentError.attachmentLimitError)
  ∧ (∀ name : String,
        encodeDocument "txt" name (some (List.replicate maxDocumentBytes 0))
          = .ok (.document .txt name (List.replicate maxDocumentBytes 0)))
  ∧ (∀ (ext : String) (f : DocumentFormat) (name : String) (bs : List Nat),
        documentFormatOfExt ext = some f →
        bs.length ≤ maxDocumentBytes →
        encodeDocument ext name (some bs) = .ok (.document f name bs))
  ∧ (∀ docs : List DocumentInput, docs.length = 6 →
        encodeDocuments docs = .error AttachmentError.attachmentLimitError)
  ∧ (∀ docs : List DocumentInput, docs.length ≤ maxDocumentsPerCall →
        encodeDocuments docs
          = exceptMap (fun d => encodeDocument d.1 d.2.1 d.2.2) docs) := by
  refine ⟨?_, ?_, ?_, ?_, ?_⟩
  · intro ext f name bs hfmt hlen
    simp [encodeDocument, hfmt, hlen]
  · intro name
    simp [encodeDocument, documentFormatOfExt, List.length_replicate]
  · intro ext f name bs hfmt hlen
    have hn : ¬ bs.length > maxDocumentBytes := by omega
    simp [encodeDocument, hfmt, hn]
  · intro docs h6
    simp [encodeDocuments, h6, maxDocumentsPerCall]
  · intro docs hle
    have hn : ¬ docs.length > maxDocumentsPerCall := by omega
    simp [encodeDocuments, hn]

/-- Witness for C5: concrete documents at, above and below the ceilings. -/
theorem attachment_ceilings_witness :
    encodeDocument "txt" "big.txt"
        (some (List.replicate (maxDocumentBytes + 1) 0))
      = .error AttachmentError.attachmentLimitError
  ∧ encodeDocument "md" "small.md" (some [104, 105])
      = .ok (.document .md "small.md" [104, 105])
  ∧ encodeDocuments (List.replicate 6 ("txt", "a.txt", some ([0] : List Nat)))
      = .error AttachmentError.attachmentLimitError
  ∧ encodeDocuments [("txt", "a.txt", some ([104] : List Nat))]
      = exceptMap (fun d => encodeDocument d.1 d.2.1 d.2.2)
          [("txt", "a.txt", some ([104] : List Nat))] :=
  ⟨attachment_ceilings.1 "txt" .txt "big.txt" _ rfl
      (by rw [List.length_replicate]; omega),
   attachment_ceilings.2.2.1 "md" .md "small.md" _ rfl (by decide),
   attachment_ceilings.2.2.2.1 _ (by simp),
   attachment_ceilings.2.2.2.2 _ (by decide)⟩

/-- C6: the extractor is a deterministic in-order fold — reasoning-tagged
blocks are concatenated in envelope order into `reasoningText` and the other
text-bearing blocks into `answerText`; on the envelope
[reasoning "step A", reasoning "step B", text "42"] it returns
("step A step B", "42"). -/
theorem split_in_order_concatenation :
    (∀ content : List ResponseBlock, textParts content ≠ [] →
        ReasoningExtractor.split content
          = .ok (joinParts (reasoningParts content),
              String.intercalate " " (textParts content)))
  ∧ ReasoningExtractor.split
      [ResponseBlock.reasoning "step A", ResponseBlock.reasoning "step B",
       ResponseBlock.text "42"]
      = .ok (some "step A step B", "42") := by
  refine ⟨?_, rfl⟩
  intro content h1
  cases hc : textParts content with
  | nil => exact absurd hc h1
  | cons a as => simp [ReasoningExtractor.split, hc]

/-- Witness for C6: a mixed envelope splits into its reasoning and answer
concatenations. -/
theorem split_in_order_concatenation_witness :
    ReasoningExtractor.split [ResponseBlock.text "a",
        ResponseBlock.reasoning "r", ResponseBlock.text "b"]
      = .ok (joinParts (reasoningParts [ResponseBlock.text "a",
            ResponseBlock.reasoning "r", ResponseBlock.text "b"]),
          String.intercalate " " (textParts [ResponseBlock.text "a",
            ResponseBlock.reasoning "r", ResponseBlock.text "b"])) :=
  split_in_order_concatenation.1 _ (by decide)

/-- C7: `appendAssistant` on the empty Transcript fails with
`EmptyTranscriptError`; `appendAssistant` after an assistant turn fails with
`RoleOrderError`; and in the spec 8 scenario the length stays 0 after the
failed assistant append, becomes 1 after appending user "Hi", stays 1 after
the failed second user append (which errors with `RoleOrderError`), and
becomes 2 after appending assistant "Hello!". -/
theorem append_error_sequence :
    appendAssistant ([] : Transcript) [ContentBlock.text "Hi there"]
        = .error AppendError.emptyTranscriptError
  ∧ (∀ (t : Transcript) (blocks : List ContentBlock),
       lastRole t = some Role.assistant →
       appendAssistant t blocks = .error AppendError.roleOrderError)
  ∧ (runOps [] [AppendOp.assistant [ContentBlock.text "Hi there"]]).length = 0
  ∧ (runOps [] [AppendOp.assistant [ContentBlock.text "Hi there"],
       AppendOp.user [ContentBlock.text "Hi"]]).length = 1
  ∧ (runOps [] [AppendOp.assistant [ContentBlock.text "Hi there"],
       AppendOp.user [ContentBlock.text "Hi"],
       AppendOp.user [ContentBlock.text "again"]]).length = 1
  ∧ (stepOp [⟨Role.user, [ContentBlock.text "Hi"]⟩]
       (AppendOp.user [ContentBlock.text "again"])).2
      = some AppendError.roleOrderError
  ∧ (runOps [] [AppendOp.assistant [ContentBlock.text "Hi there"],
       AppendOp.user [ContentBlock.text "Hi"],
       AppendOp.user [ContentBlock.text "again"],
       AppendOp.assistant [ContentBlock.text "Hello!"]]).length = 2 := by
  refine ⟨rfl, ?_, by decide, by decide, by decide, by decide, by decide⟩
  intro t blocks h
  simp [appendAssistant, h]

/-- Witness for C7: an assistant append right after an assistant turn fails
with the role order error. -/
theorem append_error_sequence_witness :
    appendAssistant [⟨Role.user, [ContentBlock.text "Hi"]⟩,
        ⟨Role.assistant, [ContentBlock.text "Hello!"]⟩]
        [ContentBlock.text "one more"]
      = .error AppendError.roleOrderError :=
  append_error_sequence.2.1 _ _ (by decide)

/-- C8 (counterexample): the two conventions are not information-equivalent
as claimed — the convention-A (Converse) request shape carries no system
prompt, so two calls differing only in system prompt produce the same
convention-A body but different convention-B bodies, and no translation from
the convention-A shape can reproduce the convention-B body. -/
theorem converse_invoke_not_information_equivalent :
    invokeRequest defaultModelConfig "You are agent A." []
        ≠ invokeRequest defaultModelConfig "You are agent B." []
  ∧ converseRequest defaultModelConfig []
      = converseRequest defaultModelConfig []
  ∧ ¬ ∃ f : ConverseRequest → InvokeRequest,
      ∀ (cfg : ModelConfig) (system : String) (t : Transcript),
        f (converseRequest cfg t) = invokeRequest cfg system t := by
  refine ⟨?_, rfl, ?_⟩
  · intro h
    have hs := congrArg InvokeRequest.system h
    simp [invokeRequest] at hs
  · rintro ⟨f, hf⟩
    have h1 := hf defaultModelConfig "You are agent A." []
    have h2 := hf defaultModelConfig "You are agent B." []
    rw [h1] at h2
    have hs := congrArg InvokeRequest.system h2
    simp [invokeRequest] at hs

/-- C8 (amended): apart from the system prompt — which only the convention-B
(Invoke) body carries — the two request shapes hold the same semantic payload
(model, ordered turns with role and blocks, sampling parameters, reasoning
toggle plus budget): pairing the convention-A body with the system prompt
yields a translation between the two wire shapes that loses no information in
either direction. -/
theorem converse_invoke_payload_equivalence :
    (∀ (cfg : ModelConfig) (system : String) (t : Transcript),
        converseToInvoke (converseRequest cfg t) system
          = invokeRequest cfg system t)
  ∧ (∀ (cfg : ModelConfig) (system : String) (t : Transcript),
        invokeToConverse (invokeRequest cfg system t)
          = (converseRequest cfg t, system))
  ∧ (∀ (r : ConverseRequest) (system : String),
        invokeToConverse (converseToInvoke r system) = (r, system))
  ∧ (∀ r : InvokeRequest,
        converseToInvoke (invokeToConverse r).1 (invokeToConverse r).2
          = { r with anthropic_version := "bedrock-2023-05-31" }) := by
  refine ⟨?_, ?_, ?_, ?_⟩
  · intro cfg system t
    simp [converseToInvoke, converseRequest, invokeRequest, format_AtoB t]
  · intro cfg system t
    simp [invokeToConverse, converseRequest, invokeRequest, format_BtoA t]
  · intro r system
    cases r
    simp [converseToInvoke, invokeToConverse, map_comp_msgBtoA_msgAtoB]
  · intro r
    cases r
    simp [converseToInvoke, invokeToConverse, map_comp_msgAtoB_msgBtoA]

/-- C9: reasoning is on by default — a default `ModelConfig()` has
`enable_reasoning = True` and `reasoning_budget_tokens = 2000` (with
`max_tokens = 4096`, `temperature = 1.0`, `top_p = 0.9`,
`context_window_tokens = 180000`), so a 2000-token reasoning configuration is
injected into every outbound request of either convention. -/
theorem modelConfig_reasoning_defaults :
    defaultModelConfig.enable_reasoning = true
  ∧ defaultModelConfig.reasoning_budget_tokens = 2000
  ∧ defaultModelConfig.max_tokens = 4096
  ∧ defaultModelConfig.temperature = 1
  ∧ defaultModelConfig.top_p = 9 / 10
  ∧ defaultModelConfig.context_window_tokens = 180000
  ∧ defaultModelConfig.model = "anthropic.claude-3-7-sonnet-20250219-v1:0"
  ∧ (∀ t : Transcript,
      (converseRequest defaultModelConfig t).thinking = some 2000)
  ∧ (∀ (system : String) (t : Transcript),
      (invokeRequest defaultModelConfig system t).thinking = some 2000) :=
  ⟨rfl, rfl, rfl, rfl, rfl, rfl, rfl, fun _ => rfl, fun _ _ => rfl⟩

/-- C10: the spec's error taxonomy surfaces through exactly three Python
exception classes — role and attachment validation failures raise
`ValueError`, a missing attachment file raises `FileNotFoundError`, and
transport failures propagate unchanged as the botocore `ClientError`; no
dedicated RoleOrderError/AttachmentLimitError/UnsupportedFormatError class
exists on the public surface. -/
theorem error_surface_exception_types :
    (∀ e : AppendError, (raiseAppendError e).typeOf = PyExceptionType.valueError)
  ∧ (raiseAttachmentError .unsupportedFormatError).typeOf
      = PyExceptionType.valueError
  ∧ (raiseAttachmentError .attachmentLimitError).typeOf
      = PyExceptionType.valueError
  ∧ (raiseAttachmentError .fileNotFoundError).typeOf
      = PyExceptionType.fileNotFoundError
  ∧ (∀ e : TransportError,
      raiseTransportError e = PyException.clientError e.code e.message)
  ∧ (∀ p : PyException,
      p.typeOf = PyExceptionType.valueError
    ∨ p.typeOf = PyExceptionType.fileNotFoundError
    ∨ p.typeOf = PyExceptionType.clientError) :=
  ⟨fun e => by cases e <;> rfl, rfl, rfl, rfl, fun _ => rfl,
   fun p => by cases p <;> simp [PyException.typeOf]⟩
